import Mathlib

/-!
Shallow embedding of `CalibFormats/SiStripObjects/interface/SiStripRegionCabling.h`.

`SiStripRegionCabling` partitions the silicon strip tracker into an
(eta, phi) grid of regions and converts between continuous positions,
grid indices, flat region ids and flat element ids.  All integer fields
of the original are `uint32_t`; they are embedded as `Nat` with explicit
wrap-around modulo `2^32` wherever the C++ arithmetic can overflow.
Floating-point (`double`) quantities are embedded as real numbers.
-/

/-- The modulus of 32-bit unsigned arithmetic, `2^32`. -/
def u32 : Nat := 4294967296

/-- uint32 addition (wraps modulo `2^32`). -/
def u32add (a b : Nat) : Nat := (a + b) % u32

/-- uint32 multiplication (wraps modulo `2^32`). -/
def u32mul (a b : Nat) : Nat := (a * b) % u32

/-- uint32 subtraction for `a, b < 2^32`: two's-complement wraparound. -/
def u32sub (a b : Nat) : Nat := (a + u32 - b % u32) % u32

/-- Conversion of a mathematical integer to uint32, wrapping modulo `2^32`
(used where the C++ converts a floating-point value to `uint32_t`). -/
def u32ofInt (z : Int) : Nat := (z % (u32 : Int)).toNat

/-- Modelled from the spec: `FedChannelConnection` is the external
channel-connection descriptor (from `CondFormats/SiStripObjects`, not under
`src/`); nothing in this module ever inspects its contents. -/
structure FedChannelConnection where
  raw : Nat

/-- `ElementCabling = std::map<uint32_t, std::vector<FedChannelConnection>>`,
embedded as an association list. -/
abbrev ElementCabling := List (Nat × List FedChannelConnection)

/-- `WedgeCabling = std::vector<ElementCabling>`. -/
abbrev WedgeCabling := List ElementCabling

/-- `RegionCabling = std::vector<WedgeCabling>`. -/
abbrev RegionCabling := List WedgeCabling

/-- `Cabling = std::vector<RegionCabling>`. -/
abbrev Cabling := List RegionCabling

/-- `enum SubDet {TIB = 0, TOB = 1, TID = 2, TEC = 3, UNKNOWN = 4}`. -/
inductive SubDet : Type
  | TIB
  | TOB
  | TID
  | TEC
  | UNKNOWN
deriving DecidableEq

/-- The numeric value of a `SubDet` enumerator. -/
def SubDet.toNat : SubDet → Nat
  | .TIB => 0
  | .TOB => 1
  | .TID => 2
  | .TEC => 3
  | .UNKNOWN => 4

/-- `static_cast<SiStripRegionCabling::SubDet>(n)` for `n ≤ 4`; the decoder
only ever applies it to `(index / MAXLAYERS) % MAXSUBDETS < 4`. -/
def subdetOfNat (n : Nat) : SubDet :=
  if n = 0 then SubDet.TIB
  else if n = 1 then SubDet.TOB
  else if n = 2 then SubDet.TID
  else if n = 3 then SubDet.TEC
  else SubDet.UNKNOWN

/-- Instance state of `SiStripRegionCabling`: the grid divisions and eta
extent fixed at construction, plus the cabling table. -/
structure SiStripRegionCabling where
  etadivisions_ : Nat
  phidivisions_ : Nat
  etamax_ : ℝ
  regioncabling_ : Cabling

namespace SiStripRegionCabling

/-- `MAXLAYERS = 10`, maximum layers of a sub-detector. -/
def MAXLAYERS : Nat := 10

/-- `MAXSUBDETS = 4`, maximum number of sub-detectors. -/
def MAXSUBDETS : Nat := 4

/-- `setRegionCabling`: bulk replacement of the cabling table
(`regioncabling_ = regioncabling`); touches no other field. -/
def setRegionCabling (s : SiStripRegionCabling) (c : Cabling) : SiStripRegionCabling :=
  { s with regioncabling_ := c }

/-- `getRegionCabling`: read-only access to the cabling table. -/
def getRegionCabling (s : SiStripRegionCabling) : Cabling :=
  s.regioncabling_

/-- `etadivisions()` accessor. -/
def etadivisions (s : SiStripRegionCabling) : Nat :=
  s.etadivisions_

/-- `phidivisions()` accessor. -/
def phidivisions (s : SiStripRegionCabling) : Nat :=
  s.phidivisions_

/-- `regionDimensions() = ((2.*etamax_)/etadivisions_, 2.*M_PI/phidivisions_)`. -/
noncomputable def regionDimensions (s : SiStripRegionCabling) : ℝ × ℝ :=
  ((2 * s.etamax_) / (s.etadivisions_ : ℝ), 2 * Real.pi / (s.phidivisions_ : ℝ))

/-- `position(PositionIndex)`: the center of the grid cell,
`(dEta*eta_bin + dEta/2, dPhi*phi_bin + dPhi/2)`. -/
noncomputable def positionOfIndex (s : SiStripRegionCabling) (i : Nat × Nat) : ℝ × ℝ :=
  ((regionDimensions s).1 * (i.1 : ℝ) + (regionDimensions s).1 / 2,
   (regionDimensions s).2 * (i.2 : ℝ) + (regionDimensions s).2 / 2)

/-- `positionIndex(Region) = (region/phidivisions_, region%phidivisions_)`. -/
def positionIndexOfRegion (s : SiStripRegionCabling) (r : Nat) : Nat × Nat :=
  (r / s.phidivisions_, r % s.phidivisions_)

/-- `position(Region)`: composition through `positionIndex(Region)`. -/
noncomputable def positionOfRegion (s : SiStripRegionCabling) (r : Nat) : ℝ × ℝ :=
  positionOfIndex s (positionIndexOfRegion s r)

/-- `region(PositionIndex) = index.first*phidivisions_ + index.second`
(uint32 arithmetic). -/
def regionOfIndex (s : SiStripRegionCabling) (i : Nat × Nat) : Nat :=
  u32add (u32mul i.1 s.phidivisions_) i.2

/-- `periodicIndex(PositionIndex&)`, embedded as (return value, mutated index).
The source first conditionally normalizes `index.second` (the `index.second < 0`
branch is kept verbatim although a uint32 is never `< 0`), then returns `false`
when `index.first` is out of `[0, etadivisions_)`. -/
def periodicIndex (s : SiStripRegionCabling) (i : Nat × Nat) : Bool × Nat × Nat :=
  let second : Nat :=
    if s.phidivisions_ ≤ i.2 then i.2 - s.phidivisions_
    else if i.2 < 0 then u32add i.2 s.phidivisions_
    else i.2
  if i.1 < 0 ∨ s.etadivisions_ ≤ i.1 then (false, (i.1, second))
  else (true, (i.1, second))

/-- `elementIndex(Region, SubDet, Layer)
  = region*MAXSUBDETS*MAXLAYERS + subdet*MAXLAYERS + layer` (uint32 arithmetic). -/
def elementIndex (r : Nat) (sub : SubDet) (lay : Nat) : Nat :=
  (r * MAXSUBDETS * MAXLAYERS + sub.toNat * MAXLAYERS + lay) % u32

/-- `layer(ElementIndex) = index % MAXLAYERS`. -/
def layer (e : Nat) : Nat :=
  e % MAXLAYERS

/-- `subdet(ElementIndex) = static_cast<SubDet>((index/MAXLAYERS)%MAXSUBDETS)`. -/
def subdet (e : Nat) : SubDet :=
  subdetOfNat ((e / MAXLAYERS) % MAXSUBDETS)

/-- `region(ElementIndex) = index/(MAXSUBDETS*MAXLAYERS)`. -/
def regionOfElement (e : Nat) : Nat :=
  e / (MAXSUBDETS * MAXLAYERS)

/-- Modelled from the spec: `positionIndex(Position)` is declared in the header
but defined in a source file that is not under `src/`.  Spec §4.1: the inverse
mapping floor-divides eta by dEta, and reduces phi modulo 2π before dividing by
dPhi; the results are converted to uint32. -/
noncomputable def positionIndexOfPosition (s : SiStripRegionCabling) (p : ℝ × ℝ) :
    Nat × Nat :=
  (u32ofInt ⌊p.1 / (regionDimensions s).1⌋,
   u32ofInt ⌊(p.2 - 2 * Real.pi * (⌊p.2 / (2 * Real.pi)⌋ : ℝ)) / (regionDimensions s).2⌋)

/-- Modelled from the spec: `region(Position)` is declared in the header but
defined in a source file that is not under `src/`.  Spec §4.1 describes it as
the inverse mapping, i.e. the composition of `positionIndex(Position)` with
`region(PositionIndex)`. -/
noncomputable def regionOfPosition (s : SiStripRegionCabling) (p : ℝ × ℝ) : Nat :=
  regionOfIndex s (positionIndexOfPosition s p)

/-- `elementIndex(Position, SubDet, Layer) = elementIndex(region(position), subdet, layer)`. -/
noncomputable def elementIndexOfPosition (s : SiStripRegionCabling) (p : ℝ × ℝ)
    (sub : SubDet) (lay : Nat) : Nat :=
  elementIndex (regionOfPosition s p) sub lay

/-- Single-element `updateSiStripRefGetter`: `refgetter.push_back(lazygetter, index)`,
embedded as the list of element indices requested from the deferred-fetch sink. -/
def updateSiStripRefGetterElem (index : Nat) : List Nat :=
  [index]

/-- Rectangular-window `updateSiStripRefGetter`, embedded as the list of
element indices requested from the deferred-fetch sink, in enumeration order.
Follows the source loop: `deta`/`dphi` are the half-widths truncated to uint32,
the candidate index is computed with wrapping uint32 arithmetic, candidates
failing `periodicIndex` are skipped, and each survivor is passed (as the
normalized index converted to a `Position`) to `elementIndex(Position, ...)`. -/
noncomputable def updateSiStripRefGetterRect (s : SiStripRegionCabling) (pos : ℝ × ℝ)
    (deltaeta deltaphi : ℝ) (sub : SubDet) (lay : Nat) : List Nat :=
  let index := positionIndexOfPosition s pos
  let deta := u32ofInt ⌊deltaeta / (regionDimensions s).1⌋
  let dphi := u32ofInt ⌊deltaphi / (regionDimensions s).2⌋
  (List.range (u32add (u32mul 2 deta) 1)).flatMap (fun ieta =>
    (List.range (u32add (u32mul 2 dphi) 1)).filterMap (fun iphi =>
      let indextemp : Nat × Nat :=
        (u32add (u32sub index.1 deta) ieta, u32add (u32sub index.2 dphi) iphi)
      let pr := periodicIndex s indextemp
      if pr.1 then
        some (elementIndexOfPosition s ((pr.2.1 : ℝ), (pr.2.2 : ℝ)) sub lay)
      else none))

/-- Conical-window `updateSiStripRefGetter`: delegates to the rectangular window
with `deltaeta = deltaphi = 1./sqrt(2)*dR*dR`. -/
noncomputable def updateSiStripRefGetterCone (s : SiStripRegionCabling) (pos : ℝ × ℝ)
    (dR : ℝ) (sub : SubDet) (lay : Nat) : List Nat :=
  updateSiStripRefGetterRect s pos (1 / Real.sqrt 2 * dR * dR) (1 / Real.sqrt 2 * dR * dR)
    sub lay

/-- State-transformer view of the const method `getRegionCabling`: its body
reads `regioncabling_` and assigns no field, so the returned state is the
input state. -/
def getRegionCablingM (s : SiStripRegionCabling) : Cabling × SiStripRegionCabling :=
  (getRegionCabling s, s)

/-- State-transformer view of the const method `position(Region)`. -/
noncomputable def positionOfRegionM (s : SiStripRegionCabling) (r : Nat) :
    (ℝ × ℝ) × SiStripRegionCabling :=
  (positionOfRegion s r, s)

/-- State-transformer view of the const method `position(PositionIndex)`. -/
noncomputable def positionOfIndexM (s : SiStripRegionCabling) (i : Nat × Nat) :
    (ℝ × ℝ) × SiStripRegionCabling :=
  (positionOfIndex s i, s)

/-- State-transformer view of the const method `positionIndex(Region)`. -/
def positionIndexOfRegionM (s : SiStripRegionCabling) (r : Nat) :
    (Nat × Nat) × SiStripRegionCabling :=
  (positionIndexOfRegion s r, s)

/-- State-transformer view of the const method `region(PositionIndex)`. -/
def regionOfIndexM (s : SiStripRegionCabling) (i : Nat × Nat) :
    Nat × SiStripRegionCabling :=
  (regionOfIndex s i, s)

/-- State-transformer view of the const method `periodicIndex(PositionIndex&)`:
it mutates its by-reference argument but assigns no instance field. -/
def periodicIndexM (s : SiStripRegionCabling) (i : Nat × Nat) :
    (Bool × Nat × Nat) × SiStripRegionCabling :=
  (periodicIndex s i, s)

/-- State-transformer view of the const method `elementIndex(Position, SubDet, Layer)`. -/
noncomputable def elementIndexOfPositionM (s : SiStripRegionCabling) (p : ℝ × ℝ)
    (sub : SubDet) (lay : Nat) : Nat × SiStripRegionCabling :=
  (elementIndexOfPosition s p sub lay, s)

/-- State-transformer view of the const rectangular-window selector. -/
noncomputable def updateSiStripRefGetterRectM (s : SiStripRegionCabling) (pos : ℝ × ℝ)
    (deltaeta deltaphi : ℝ) (sub : SubDet) (lay : Nat) :
    List Nat × SiStripRegionCabling :=
  (updateSiStripRefGetterRect s pos deltaeta deltaphi sub lay, s)

/-- State-transformer view of the const conical-window selector. -/
noncomputable def updateSiStripRefGetterConeM (s : SiStripRegionCabling) (pos : ℝ × ℝ)
    (dR : ℝ) (sub : SubDet) (lay : Nat) : List Nat × SiStripRegionCabling :=
  (updateSiStripRefGetterCone s pos dR sub lay, s)

end SiStripRegionCabling

/-- A sample instance with `etadivisions_ = 4`, `phidivisions_ = 8`
(the parameters used by the spec's worked examples). -/
noncomputable def sEx : SiStripRegionCabling :=
  { etadivisions_ := 4, phidivisions_ := 8, etamax_ := 0, regioncabling_ := [] }

/-- A sample instance with `etadivisions_ = 4`, `phidivisions_ = 8` and
`etamax_ = 2.4`, giving cell sizes `dEta = 1.2` and `dPhi = pi/4`. -/
noncomputable def s5 : SiStripRegionCabling :=
  { etadivisions_ := 4, phidivisions_ := 8, etamax_ := 12 / 5, regioncabling_ := [] }

namespace SiStripRegionCabling

/-- Mapping a value `< 4` into `SubDet` and back is the identity. -/
theorem toNat_subdetOfNat (n : Nat) (h : n < 4) : (subdetOfNat n).toNat = n := by
  unfold subdetOfNat
  split_ifs with h0 h1 h2 h3 <;> simp_all [SubDet.toNat] <;> omega

/-- Decoding the numeric value of a `SubDet` enumerator gives it back. -/
theorem subdetOfNat_toNat (sub : SubDet) : subdetOfNat sub.toNat = sub := by
  cases sub <;> rfl

/-- C1 (amended): with `subdet` one of the four defined sub-detectors,
`layer < MAXLAYERS`, and the encoded value `region*MAXSUBDETS*MAXLAYERS +
subdet*MAXLAYERS + layer` below `2^32` (no uint32 overflow), the three decoders
recover `region`, `subdet` and `layer` from `elementIndex(region, subdet, layer)`;
and for every uint32 `e`, `elementIndex(region(e), subdet(e), layer(e)) = e`. -/
theorem elementIndex_roundtrip (r lay e : Nat) (sub : SubDet)
    (hsub : sub ≠ SubDet.UNKNOWN) (hlay : lay < MAXLAYERS)
    (hov : r * MAXSUBDETS * MAXLAYERS + sub.toNat * MAXLAYERS + lay < u32)
    (he : e < u32) :
    (regionOfElement (elementIndex r sub lay) = r ∧
     subdet (elementIndex r sub lay) = sub ∧
     layer (elementIndex r sub lay) = lay) ∧
    elementIndex (regionOfElement e) (subdet e) (layer e) = e := by
  have hts : sub.toNat ≤ 3 := by
    cases sub <;> simp_all [SubDet.toNat]
  have hlay10 : lay < 10 := by
    simpa [MAXLAYERS] using hlay
  have hov32 : r * 4 * 10 + sub.toNat * 10 + lay < 4294967296 := by
    simpa [MAXSUBDETS, MAXLAYERS, u32] using hov
  have he32 : e < 4294967296 := by
    simpa [u32] using he
  have henc : elementIndex r sub lay = r * 4 * 10 + sub.toNat * 10 + lay := by
    simp only [elementIndex, MAXSUBDETS, MAXLAYERS, u32]
    exact Nat.mod_eq_of_lt hov32
  constructor
  · refine ⟨?_, ?_, ?_⟩
    · simp only [regionOfElement, MAXSUBDETS, MAXLAYERS]
      rw [henc]
      omega
    · simp only [subdet, MAXSUBDETS, MAXLAYERS]
      rw [henc]
      have hq : (r * 4 * 10 + sub.toNat * 10 + lay) / 10 % 4 = sub.toNat := by
        omega
      rw [hq, subdetOfNat_toNat]
    · simp only [layer, MAXLAYERS]
      rw [henc]
      omega
  · simp only [elementIndex, regionOfElement, subdet, layer, MAXSUBDETS, MAXLAYERS, u32]
    have h4 : e / 10 % 4 < 4 := Nat.mod_lt _ (by omega)
    rw [toNat_subdetOfNat _ h4]
    have hinner : e / (4 * 10) * 4 * 10 + e / 10 % 4 * 10 + e % 10 = e := by
      omega
    rw [hinner]
    exact Nat.mod_eq_of_lt he32

/-- Witness for C1's amended round-trip at concrete inputs. -/
theorem elementIndex_roundtrip_witness :
    ((regionOfElement (elementIndex 5 SubDet.TOB 3) = 5 ∧
      subdet (elementIndex 5 SubDet.TOB 3) = SubDet.TOB ∧
      layer (elementIndex 5 SubDet.TOB 3) = 3) ∧
     elementIndex (regionOfElement 4294967295) (subdet 4294967295) (layer 4294967295) =
       4294967295) :=
  elementIndex_roundtrip 5 3 4294967295 SubDet.TOB (by decide) (by decide) (by decide)
    (by decide)

/-- C1 counterexample: as stated (with no bound on the region), the decoders do
not recover the region, because the uint32 encoding wraps: with
`region = 107374183`, `subdet = TIB`, `layer = 0` (a sub-detector among the four
and a layer below `MAXLAYERS`), the encoded element index is `24` and decodes to
region `0`. -/
theorem elementIndex_overflow_cex :
    SubDet.TIB ≠ SubDet.UNKNOWN ∧ (0 : Nat) < MAXLAYERS ∧
    elementIndex 107374183 SubDet.TIB 0 = 24 ∧
    regionOfElement (elementIndex 107374183 SubDet.TIB 0) = 0 ∧
    (0 : Nat) ≠ 107374183 := by
  refine ⟨by decide, by decide, by decide, by decide, by decide⟩

/-- C2 (code bug evaluation): with `phidivisions_ = 8` and `etadivisions_ = 4`,
the index with `phi_bin = 4294967295` (`−1` in uint32) takes the subtraction
branch and ends with `phi_bin = 4294967287`, not `7`, while still returning
`true`; the in-range wrap `phi_bin = 8 → 0` does hold.  The source's
`index.second < 0` branch can never fire on an unsigned value. -/
theorem periodicIndex_underflow_eval :
    periodicIndex sEx (0, 4294967295) = (true, (0, 4294967287)) ∧
    (4294967287 : Nat) ≠ 7 ∧
    periodicIndex sEx (0, 8) = (true, (0, 0)) := by
  refine ⟨by decide, by decide, by decide⟩

/-- C3: for any instance with `phidivisions_ > 0` and any region below
`etadivisions_ * phidivisions_` (and representable in uint32),
`region(positionIndex(r)) = r`. -/
theorem region_positionIndex_roundtrip (s : SiStripRegionCabling) (r : Nat)
    (hp : 0 < s.phidivisions_) (hr : r < s.etadivisions_ * s.phidivisions_)
    (hr32 : r < u32) :
    regionOfIndex s (positionIndexOfRegion s r) = r := by
  have hr32' : r < 4294967296 := by
    simpa [u32] using hr32
  simp only [regionOfIndex, positionIndexOfRegion, u32add, u32mul, u32]
  have hdm : r / s.phidivisions_ * s.phidivisions_ + r % s.phidivisions_ = r := by
    rw [Nat.mul_comm]
    exact Nat.div_add_mod r s.phidivisions_
  have h1 : r / s.phidivisions_ * s.phidivisions_ % 4294967296
      = r / s.phidivisions_ * s.phidivisions_ :=
    Nat.mod_eq_of_lt (by omega)
  rw [h1, hdm]
  exact Nat.mod_eq_of_lt hr32'

/-- Witness for C3 at `etadivisions_ = 4`, `phidivisions_ = 8`, `r = 17`. -/
theorem region_positionIndex_roundtrip_witness :
    regionOfIndex sEx (positionIndexOfRegion sEx 17) = 17 :=
  region_positionIndex_roundtrip sEx 17 (by decide) (by decide) (by decide)

/-- C4: `periodicIndex` returns `false` exactly when the eta bin is out of
`[0, etadivisions_)` (for a uint32 that means `etadivisions_ ≤ eta_bin`), it
never modifies the eta bin, and in particular with `etadivisions_ = 4` an input
with `eta_bin = 4` returns `false` while an in-range input returns `true`. -/
theorem periodicIndex_eta_gate :
    (∀ (s : SiStripRegionCabling) (i : Nat × Nat),
      ((periodicIndex s i).1 = false ↔ s.etadivisions_ ≤ i.1) ∧
      (periodicIndex s i).2.1 = i.1) ∧
    (periodicIndex sEx (4, 0)).1 = false ∧
    (periodicIndex sEx (2, 3)).1 = true := by
  refine ⟨?_, by decide, by decide⟩
  intro s i
  unfold periodicIndex
  split_ifs with h <;> simp_all <;> omega

/-- C9: `periodicIndex` is not atomic on failure — the phi normalization runs
before the eta bound check, so a `false` return can come with a modified
`phi_bin` (here `(4, 9)` with divisions `(4, 8)` returns `false` with `phi_bin`
changed from `9` to `1`); only the eta bin is preserved on every call. -/
theorem periodicIndex_phi_mutation_on_failure :
    (∀ (s : SiStripRegionCabling) (i : Nat × Nat),
      (periodicIndex s i).2.1 = i.1) ∧
    periodicIndex sEx (4, 9) = (false, (4, 1)) ∧
    (1 : Nat) ≠ 9 := by
  refine ⟨?_, by decide, by decide⟩
  intro s i
  unfold periodicIndex
  split_ifs <;> rfl

/-- C10: the element decoders are total over all of uint32 — for every index
the decoded layer is below `MAXLAYERS`, and the decoded sub-detector is one of
the four defined ones (never `UNKNOWN`), because `(index/MAXLAYERS) % MAXSUBDETS`
is always below `4`. -/
theorem element_decoders_total (e : Nat) :
    layer e < MAXLAYERS ∧
    (e / MAXLAYERS) % MAXSUBDETS < 4 ∧
    subdet e ≠ SubDet.UNKNOWN ∧
    (subdet e = SubDet.TIB ∨ subdet e = SubDet.TOB ∨
     subdet e = SubDet.TID ∨ subdet e = SubDet.TEC) := by
  have hl : layer e < MAXLAYERS := by
    simp only [layer, MAXLAYERS]
    omega
  have h4 : (e / MAXLAYERS) % MAXSUBDETS < 4 := by
    simp only [MAXSUBDETS]
    omega
  have hsub : subdet e = subdetOfNat ((e / MAXLAYERS) % MAXSUBDETS) := rfl
  have hcases : (e / MAXLAYERS) % MAXSUBDETS = 0 ∨ (e / MAXLAYERS) % MAXSUBDETS = 1 ∨
      (e / MAXLAYERS) % MAXSUBDETS = 2 ∨ (e / MAXLAYERS) % MAXSUBDETS = 3 := by
    omega
  refine ⟨hl, h4, ?_, ?_⟩
  · rw [hsub]
    rcases hcases with h | h | h | h <;> rw [h] <;> decide
  · rw [hsub]
    rcases hcases with h | h | h | h <;> rw [h] <;> decide

/-- C6: the conical window selector is exactly the rectangular selector invoked
with both half-widths equal to `dR^2 / sqrt 2`; in particular `dR = 1` yields
half-widths `1 / sqrt 2`, and the derived half-width `1/sqrt(2)*dR*dR` equals
`dR^2 / sqrt 2` for every `dR`. -/
theorem cone_reduces_to_rect (s : SiStripRegionCabling) (pos : ℝ × ℝ) (dR : ℝ)
    (sub : SubDet) (lay : Nat) :
    updateSiStripRefGetterCone s pos dR sub lay =
      updateSiStripRefGetterRect s pos (dR ^ 2 / Real.sqrt 2) (dR ^ 2 / Real.sqrt 2)
        sub lay ∧
    1 / Real.sqrt 2 * (1 : ℝ) * 1 = 1 / Real.sqrt 2 ∧
    ∀ x : ℝ, 1 / Real.sqrt 2 * x * x = x ^ 2 / Real.sqrt 2 := by
  have hw : ∀ x : ℝ, 1 / Real.sqrt 2 * x * x = x ^ 2 / Real.sqrt 2 := by
    intro x
    ring
  refine ⟨?_, by ring, hw⟩
  unfold updateSiStripRefGetterCone
  rw [hw dR]

/-- C7: `position(PositionIndex)` returns the center of the cell,
`(dEta*eta_bin + dEta/2, dPhi*phi_bin + dPhi/2)` with
`regionDimensions() = (2*etamax_/etadivisions_, 2*pi/phidivisions_)`, and
`position(Region)` is the composition through `positionIndex(Region)`. -/
theorem position_cell_center (s : SiStripRegionCabling) (i j r : Nat) :
    positionOfIndex s (i, j) =
      (2 * s.etamax_ / (s.etadivisions_ : ℝ) * (i : ℝ)
         + 2 * s.etamax_ / (s.etadivisions_ : ℝ) / 2,
       2 * Real.pi / (s.phidivisions_ : ℝ) * (j : ℝ)
         + 2 * Real.pi / (s.phidivisions_ : ℝ) / 2) ∧
    regionDimensions s =
      (2 * s.etamax_ / (s.etadivisions_ : ℝ), 2 * Real.pi / (s.phidivisions_ : ℝ)) ∧
    positionOfRegion s r = positionOfIndex s (positionIndexOfRegion s r) :=
  ⟨rfl, rfl, rfl⟩

/-- C8: `setRegionCabling` replaces the whole cabling table in one bulk
operation (`getRegionCabling` then returns exactly the installed table) while
leaving `etadivisions_`, `phidivisions_` and `etamax_` unchanged; and every
const query method, viewed as a state transformer, returns the instance state
unchanged (their bodies assign no field). -/
theorem setRegionCabling_frame (s : SiStripRegionCabling) (c : Cabling)
    (r lay : Nat) (i : Nat × Nat) (p : ℝ × ℝ) (de dp dr : ℝ) (sub : SubDet) :
    getRegionCabling (setRegionCabling s c) = c ∧
    (setRegionCabling s c).etadivisions_ = s.etadivisions_ ∧
    (setRegionCabling s c).phidivisions_ = s.phidivisions_ ∧
    (setRegionCabling s c).etamax_ = s.etamax_ ∧
    (getRegionCablingM s).2 = s ∧
    (positionOfRegionM s r).2 = s ∧
    (positionOfIndexM s i).2 = s ∧
    (positionIndexOfRegionM s r).2 = s ∧
    (regionOfIndexM s i).2 = s ∧
    (periodicIndexM s i).2 = s ∧
    (elementIndexOfPositionM s p sub lay).2 = s ∧
    (updateSiStripRefGetterRectM s p de dp sub lay).2 = s ∧
    (updateSiStripRefGetterConeM s p dr sub lay).2 = s :=
  ⟨rfl, rfl, rfl, rfl, rfl, rfl, rfl, rfl, rfl, rfl, rfl, rfl, rfl⟩

/-- C5 (code bug evaluation): on the instance with divisions `(4, 8)` and
`etamax_ = 2.4`, center position `(3, 0)` (center cell `(2, 0)`) and zero
half-widths, the window selector enumerates the single surviving candidate
`(2, 0)` but issues the request for element `320` (region `8`), because the
source converts the candidate bin pair to a continuous `Position` and re-derives
the region from it; the candidate's own element index for `TIB`, layer `0` is
`elementIndex(region((2,0))) = elementIndex(16) = 640`. -/
theorem window_selector_misroute_eval :
    updateSiStripRefGetterRect s5 ((3 : ℝ), (0 : ℝ)) 0 0 SubDet.TIB 0 = [320] ∧
    elementIndex (regionOfIndex s5 (2, 0)) SubDet.TIB 0 = 640 ∧
    ([320] : List Nat) ≠ [640] := by
  have h1 : (regionDimensions s5).1 = (6 : ℝ) / 5 := by
    show (2 * (12 / 5 : ℝ)) / ((4 : Nat) : ℝ) = (6 : ℝ) / 5
    norm_num
  have h2 : (regionDimensions s5).2 = Real.pi / 4 := by
    show 2 * Real.pi / ((8 : Nat) : ℝ) = Real.pi / 4
    push_cast
    ring
  have hf3 : ⌊(3 : ℝ) / ((6 : ℝ) / 5)⌋ = 2 := by
    rw [show (3 : ℝ) / ((6 : ℝ) / 5) = 5 / 2 by norm_num]
    rw [Int.floor_eq_iff]
    norm_num
  have hf2 : ⌊(2 : ℝ) / ((6 : ℝ) / 5)⌋ = 1 := by
    rw [show (2 : ℝ) / ((6 : ℝ) / 5) = 5 / 3 by norm_num]
    rw [Int.floor_eq_iff]
    norm_num
  have hc : positionIndexOfPosition s5 ((3 : ℝ), (0 : ℝ)) = (2, 0) := by
    unfold positionIndexOfPosition
    dsimp only
    rw [h1, h2]
    simp only [zero_div, Int.floor_zero, Int.cast_zero, mul_zero, sub_zero, hf3]
    decide
  have hc2 : positionIndexOfPosition s5 (((2 : Nat) : ℝ), ((0 : Nat) : ℝ)) = (1, 0) := by
    unfold positionIndexOfPosition
    dsimp only
    rw [h1, h2]
    rw [show ((2 : Nat) : ℝ) = (2 : ℝ) by push_cast; ring,
        show ((0 : Nat) : ℝ) = (0 : ℝ) by push_cast; ring]
    simp only [zero_div, Int.floor_zero, Int.cast_zero, mul_zero, sub_zero, hf2]
    decide
  have helem : elementIndexOfPosition s5 (((2 : Nat) : ℝ), ((0 : Nat) : ℝ)) SubDet.TIB 0
      = 320 := by
    unfold elementIndexOfPosition regionOfPosition
    rw [hc2]
    decide
  have hper : periodicIndex s5 (2, 0) = (true, (2, 0)) := by decide
  refine ⟨?_, by decide, by decide⟩
  unfold updateSiStripRefGetterRect
  rw [hc, h1, h2]
  simp only [zero_div, Int.floor_zero]
  rw [show u32ofInt 0 = 0 by decide]
  rw [show u32add (u32mul 2 0) 1 = 1 by decide]
  rw [show List.range 1 = [0] by decide]
  simp only [List.flatMap_cons, List.flatMap_nil, List.filterMap_cons, List.filterMap_nil]
  rw [show u32add (u32sub 2 0) 0 = 2 by decide, show u32add (u32sub 0 0) 0 = 0 by decide]
  rw [hper]
  simp only [List.append_nil]
  rw [helem]
  simp

end SiStripRegionCabling
